import Mathlib

/-!
Verification development for the gpx-analyzer program (src/main.rs).

The program streams XML events from GPX track files, computes for every
track point a distance from a reference coordinate, collapses maximal runs
of within-threshold points ("zones") into single minimum results, keeps a
running nearest miss, binds timestamp text to results, and in main merges
all per-file result lists into one sorted, threshold-partitioned report.

Embedding conventions:
- f64 values are modelled as rationals. The two geometric distance
  calls from the geo crate (haversine_distance for the first point of a
  file, euclidean_distance from the reference to the segment between the
  previous and the current point, src/main.rs lines 129-135) are passed to
  the analysis loop as function parameters pointDist and segDist, since
  the zone state machine depends only on the resulting distance values;
  the segment distance formula itself is embedded separately as
  line_segment_distance below, following the point-to-segment minimum
  distance that geo computes.
- The quick_xml event stream is modelled by the inductive XmlEvent.
  Attribute values carry Option rationals: none models a value whose
  unescape or f64 parse fails, which the source answers with a warning
  and a continue of the event loop.
- Rust's stable Vec sort_by on the distance field is modelled by
  List.insertionSort with the non-strict comparison on the distance
  field, which is also stable, hence extensionally the same sort.
- The panic of unwrap on the XML reader constructor (src/main.rs line 30)
  is modelled by Option: analyzeFile returns none for a file that cannot
  be opened, and runCorpus propagates that none, as the rayon worker
  panic aborts the whole collect in main.
-/

namespace GpxAnalyzer

/-- Mirrors struct GpxResult (src/main.rs lines 23-27): a candidate result
with distance, source path and optional timestamp string. -/
structure GpxResult where
  distance : ℚ
  path : String
  time : Option String
deriving Repr, DecidableEq

/-- Abstraction of the quick_xml events consumed by analyze. Attribute
values are pre-decoded: some q models a value that unescapes and parses to
the number q, none models an unescape or parse failure. The text payload
is the already unescaped string. errorEvent stands for Err results of
read_event (logged and skipped by the source), otherEvent for every event
kind the source ignores. -/
inductive XmlEvent where
  | startTag (name : String) (attrs : List (String × Option ℚ))
  | endTag (name : String)
  | text (s : String)
  | eof
  | errorEvent
  | otherEvent
deriving Repr, DecidableEq

/-- Value of std::usize::MAX, the sentinel the source stores in
searching_time_for when no zone slot is awaiting a timestamp. -/
def USIZE_MAX : Nat := 2 ^ 64 - 1

/-- The mutable locals of analyze (src/main.rs lines 34-40) that live
across loop iterations. -/
structure AnalyzeState where
  results : List GpxResult
  new_results : List GpxResult
  nearest : Option GpxResult
  time_update : Bool
  in_time : Bool
  searching_time_for : Nat
  last_point : Option (ℚ × ℚ)
deriving Repr, DecidableEq

/-- Initial state of the analyze loop (src/main.rs lines 34-40). -/
def initState : AnalyzeState :=
  { results := []
    new_results := []
    nearest := none
    time_update := false
    in_time := false
    searching_time_for := USIZE_MAX
    last_point := none }

/-- Mirrors e.attributes().find(...) on a key (src/main.rs lines 47-50 and
87-90): first attribute with the given key, if any, together with its
decoded value. -/
def findAttr (attrs : List (String × Option ℚ)) (key : String) : Option (Option ℚ) :=
  (attrs.find? (fun a => a.1 = key)).map (fun a => a.2)

/-- Comparison used by every sort_by in the source: ascending by the
distance field. -/
def resultLE (a b : GpxResult) : Prop := a.distance ≤ b.distance

instance : DecidableRel resultLE :=
  fun a b => inferInstanceAs (Decidable (a.distance ≤ b.distance))

/-- Stable ascending sort by distance, modelling
sort_by(partial_cmp on distance) (src/main.rs lines 149-151, 211-213 and
388-389). Insertion sort with a non-strict comparison is stable, like
Rust's sort_by, so the two agree as functions. -/
def sortByDistance (l : List GpxResult) : List GpxResult :=
  List.insertionSort resultLE l

/-- Mirrors nearest.is_none() || nearest.as_ref().unwrap().distance > dist
(src/main.rs line 137). -/
def nearestFartherThan (nearest : Option GpxResult) (dist : ℚ) : Bool :=
  match nearest with
  | none => true
  | some n => decide (n.distance > dist)

/-- Handling of one successfully parsed track point with its computed
distance (src/main.rs lines 137-164): update nearest when the new distance
is a strictly smaller miss (lines 137-146), close an open zone on an
out-of-threshold distance by pushing its minimum member (lines 148-154),
append an in-threshold point to the open zone and record its slot as
awaiting a timestamp (lines 156-163), and advance last_point (line 164). -/
def trkptStep (path : String) (distance : ℚ) (dist : ℚ) (pt : ℚ × ℚ)
    (st : AnalyzeState) : AnalyzeState :=
  let st1 : AnalyzeState :=
    if nearestFartherThan st.nearest dist ∧ dist > distance then
      { st with
          nearest := some { distance := dist, path := path, time := none }
          time_update := true }
    else st
  let st2 : AnalyzeState :=
    if dist > distance ∧ st1.new_results ≠ [] then
      { st1 with
          results := st1.results ++ (sortByDistance st1.new_results).take 1
          new_results := [] }
    else st1
  let st3 : AnalyzeState :=
    if dist ≤ distance then
      { st2 with
          new_results :=
            st2.new_results ++ [{ distance := dist, path := path, time := none }]
          searching_time_for := st2.new_results.length }
    else st2
  { st3 with last_point := some pt }

/-- Handling of a text event (src/main.rs lines 177-188): nonempty text
inside a time element binds to the awaiting zone slot when its index is
valid, else to nearest when time_update is set; any text inside a time
element clears time_update. -/
def textStep (s : String) (st : AnalyzeState) : AnalyzeState :=
  if st.in_time then
    let st1 : AnalyzeState :=
      if s ≠ "" then
        match st.new_results[st.searching_time_for]? with
        | some r =>
          { st with
              new_results :=
                st.new_results.set st.searching_time_for { r with time := some s } }
        | none =>
          if st.time_update then
            { st with nearest := st.nearest.map (fun n => { n with time := some s }) }
          else st
      else st
    { st1 with time_update := false }
  else st

section Analysis

variable (pointDist : ℚ × ℚ → ℚ × ℚ → ℚ)
variable (segDist : ℚ × ℚ → ℚ × ℚ → ℚ × ℚ → ℚ)
variable (refp : ℚ × ℚ) (path : String) (distance : ℚ)

/-- Distance selection for an incoming point (src/main.rs lines 129-135):
with a previous point, the distance from the reference to the segment from
the previous to the current point (euclidean_distance against a Line);
with no previous point, the point distance (haversine_distance) from the
reference to the current point. -/
def distOf (last : Option (ℚ × ℚ)) (pt : ℚ × ℚ) : ℚ :=
  match last with
  | some lp => segDist refp lp pt
  | none => pointDist refp pt

/-- One iteration of the analyze event loop (src/main.rs lines 42-226),
excluding Eof which ends the loop. A trkpt start whose lon or lat
attribute is missing or fails to decode leaves the state unchanged (the
source continues the loop); a successful one is handled by trkptStep on
the computed distance. A time start or end toggles in_time (lines 165-167
and 173-175); a trkpt end resets the awaiting slot (lines 170-172); text
is handled by textStep; Err results of read_event are logged and skipped
(lines 219-224); all other events are ignored (line 225). -/
def step (st : AnalyzeState) (e : XmlEvent) : AnalyzeState :=
  match e with
  | XmlEvent.startTag name attrs =>
    if name = "trkpt" then
      match findAttr attrs "lon", findAttr attrs "lat" with
      | some (some lonv), some (some latv) =>
        trkptStep path distance
          (distOf pointDist segDist refp st.last_point (lonv, latv)) (lonv, latv) st
      | _, _ => st
    else if name = "time" then
      { st with in_time := true }
    else st
  | XmlEvent.endTag name =>
    let st1 := if name = "trkpt" then { st with searching_time_for := USIZE_MAX } else st
    if name = "time" then { st1 with in_time := false } else st1
  | XmlEvent.text s => textStep s st
  | _ => st

/-- Warnings printed by one iteration of the loop for a trkpt start with a
bad coordinate attribute (src/main.rs lines 55-58, 66-69, 77-80 for the
longitude, 95-98, 106-109, 117-120 for the latitude). A missing attribute
is skipped silently (lines 85 and 125). -/
def stepWarnings (e : XmlEvent) : List String :=
  match e with
  | XmlEvent.startTag name attrs =>
    if name = "trkpt" then
      match findAttr attrs "lon" with
      | none => []
      | some none => ["[WARNING] Invalid longitude in file: " ++ path]
      | some (some _) =>
        match findAttr attrs "lat" with
        | none => []
        | some none => ["[WARNING] Invalid latitude in file: " ++ path]
        | some (some _) => []
    else []
  | _ => []

/-- End-of-stream behaviour of analyze (src/main.rs lines 190-218): nearest
is emitted only when both results and new_results are empty; results are
emitted in order; a still-open zone contributes its minimum member. The
capacity bookkeeping of the source, including its early empty return, has
no further observable effect. -/
def finalize (st : AnalyzeState) : List GpxResult :=
  let base : List GpxResult :=
    if st.results = [] ∧ st.new_results = [] then st.nearest.toList else []
  let withResults : List GpxResult :=
    if st.results ≠ [] then base ++ st.results else base
  if st.new_results ≠ [] then withResults ++ (sortByDistance st.new_results).take 1
  else withResults

/-- Runs the analyze loop over a list of events; the first Eof event ends
the loop exactly as in the source, where the reader keeps returning Eof at
end of input. -/
def analyzeLoop (st : AnalyzeState) : List XmlEvent → List GpxResult
  | [] => finalize st
  | e :: rest =>
    if e = XmlEvent.eof then finalize st
    else analyzeLoop (step pointDist segDist refp path distance st e) rest

/-- Mirrors fn analyze (src/main.rs lines 29-228) on an already opened
event stream. -/
def analyze (events : List XmlEvent) : List GpxResult :=
  analyzeLoop pointDist segDist refp path distance initState events

/-- All warnings printed while running the loop, collected until the first
Eof event. -/
def analyzeWarnings : List XmlEvent → AnalyzeState → List String
  | [], _ => []
  | e :: rest, st =>
    if e = XmlEvent.eof then []
    else
      stepWarnings path e ++
        analyzeWarnings rest (step pointDist segDist refp path distance st e)

/-- Models the fallible opening of one file followed by analyze: the
unwrap on quick_xml::Reader::from_file (src/main.rs line 30) panics when
the path cannot be opened, modelled by none. -/
def analyzeFile (opened : Option (List XmlEvent)) : Option (List GpxResult) :=
  match opened with
  | none => none
  | some events => some (analyze pointDist segDist refp path distance events)

/-- Models the corpus pass of main (src/main.rs lines 372-375): one
analyze per file, collected in order. A panic in any worker propagates out
of the parallel collect and aborts the whole run, modelled by
none-propagation. Each file carries its own path and its own opening
outcome. -/
def runCorpus : List (String × Option (List XmlEvent)) →
    Option (List (List GpxResult))
  | [] => some []
  | f :: rest =>
    match analyzeFile pointDist segDist refp f.1 distance f.2,
        runCorpus rest with
    | some r, some rs => some (r :: rs)
    | _, _ => none

end Analysis

/-- The report main prints after merging (src/main.rs lines 397-427):
the within-threshold partition, the optional single nearest point beyond
the threshold, the optional single closest result when nothing is within
the threshold, and whether any result exists at all. -/
structure Report where
  within : List GpxResult
  nearestOutside : Option GpxResult
  closestOverall : Option GpxResult
  foundAny : Bool
deriving Repr, DecidableEq

/-- Merge and partition stage of main (src/main.rs lines 376-427): flatten
the per-file result lists (extend over the non-empty ones equals flatten),
sort ascending by distance, filter the within-threshold part, and read the
element at the index just past the filtered part as the nearest point out
of distance; with an empty within-threshold part the first (minimum)
result, if any, is the closest overall. -/
def buildReport (distance : ℚ) (perFile : List (List GpxResult)) : Report :=
  let results := sortByDistance perFile.flatten
  let filtered := results.filter (fun r => decide (r.distance ≤ distance))
  if filtered ≠ [] then
    { within := filtered
      nearestOutside := results[filtered.length]?
      closestOverall := none
      foundAny := true }
  else if results ≠ [] then
    { within := []
      nearestOutside := none
      closestOverall := results.head?
      foundAny := true }
  else
    { within := []
      nearestOutside := none
      closestOverall := none
      foundAny := false }

/-- Recognizes a trkpt start event whose lon and lat attributes are both
present and decodable, the only event kind that can create or extend
results inside the loop. -/
def parsesTrkpt (e : XmlEvent) : Bool :=
  match e with
  | XmlEvent.startTag name attrs =>
    name = "trkpt" &&
      (match findAttr attrs "lon" with
       | some (some _) => true
       | _ => false) &&
      (match findAttr attrs "lat" with
       | some (some _) => true
       | _ => false)
  | _ => false

/-! Geometry of the segment distance. The source calls the geo crate's
euclidean_distance from a point to a Line (src/main.rs lines 131-132),
which is the minimum euclidean distance from the point to the closed
segment: with r the normalized projection parameter of the point onto the
segment direction, the distance to the start endpoint when r is at most 0,
the distance to the end endpoint when r is at least 1, and the
perpendicular offset from the infinite line otherwise. Coordinates are
rational, the resulting distance is real. -/

/-- Squared euclidean distance between two planar points. -/
def qdist2 (p q : ℚ × ℚ) : ℚ :=
  (p.1 - q.1) * (p.1 - q.1) + (p.2 - q.2) * (p.2 - q.2)

/-- Euclidean distance between two planar points. -/
noncomputable def euclidean_distance (p q : ℚ × ℚ) : ℝ :=
  Real.sqrt (qdist2 p q)

/-- Normalized projection parameter r of point onto the direction of the
segment from s to e: r = 0 at s, r = 1 at e; the projection of the
reference falls strictly between the endpoint projections exactly when
0 < r < 1. -/
def segParam (point s e : ℚ × ℚ) : ℚ :=
  ((point.1 - s.1) * (e.1 - s.1) + (point.2 - s.2) * (e.2 - s.2)) / qdist2 s e

/-- Normalized cross product term of the segment distance computation:
its absolute value times the segment length is the perpendicular offset of
point from the infinite line through s and e. -/
def segCross (point s e : ℚ × ℚ) : ℚ :=
  ((s.2 - point.2) * (e.1 - s.1) - (s.1 - point.1) * (e.2 - s.2)) / qdist2 s e

/-- Foot of the perpendicular from point onto the line through s and e. -/
def segFoot (point s e : ℚ × ℚ) : ℚ × ℚ :=
  (s.1 + segParam point s e * (e.1 - s.1), s.2 + segParam point s e * (e.2 - s.2))

/-- Minimum euclidean distance from point to the closed segment from s to
e, as the geo crate computes it for euclidean_distance of a Point against
a Line (called at src/main.rs line 132). -/
noncomputable def line_segment_distance (point s e : ℚ × ℚ) : ℝ :=
  if s = e then euclidean_distance point s
  else if segParam point s e ≤ 0 then euclidean_distance point s
  else if 1 ≤ segParam point s e then euclidean_distance point e
  else |(segCross point s e : ℝ)| * Real.sqrt ((qdist2 s e : ℚ) : ℝ)

/-! Concrete instantiations used by the scenario theorems: a distance
oracle that reads the distance off the longitude coordinate of the current
point, so an event list can realize any prescribed sequence of distances. -/

/-- Demo point-distance oracle: the distance of a point is its first
coordinate. -/
def xDist (_refq pt : ℚ × ℚ) : ℚ := pt.1

/-- Demo segment-distance oracle: the distance to a segment is the first
coordinate of the segment's end point, the current track point. -/
def xSegDist (_refq _lp pt : ℚ × ℚ) : ℚ := pt.1

/-- Event for one trkpt element with both coordinates decodable, carrying
x as its longitude, followed by nothing inside it. -/
def trkptEv (x : ℚ) : XmlEvent :=
  XmlEvent.startTag "trkpt" [("lon", some x), ("lat", some 0)]

/-- Event stream of the end-to-end scenario of the spec: one file whose
sequential point distances under the demo oracles are 50, 150, 80, 30,
500. -/
def demoEvents1 : List XmlEvent :=
  [trkptEv 50, XmlEvent.endTag "trkpt",
   trkptEv 150, XmlEvent.endTag "trkpt",
   trkptEv 80, XmlEvent.endTag "trkpt",
   trkptEv 30, XmlEvent.endTag "trkpt",
   trkptEv 500, XmlEvent.endTag "trkpt",
   XmlEvent.eof]

/-- Event stream realizing the fallback scenario: distances 150, 500, 300,
all beyond a threshold of 100, so no zone ever opens. -/
def demoEventsMiss : List XmlEvent :=
  [trkptEv 150, XmlEvent.endTag "trkpt",
   trkptEv 500, XmlEvent.endTag "trkpt",
   trkptEv 300, XmlEvent.endTag "trkpt",
   XmlEvent.eof]

/-- Event stream with a time element that is not nested under any trkpt:
the single point misses the threshold, its trkpt element closes, and only
then does a time element with text appear. -/
def demoEventsLateTime : List XmlEvent :=
  [trkptEv 150, XmlEvent.endTag "trkpt",
   XmlEvent.startTag "time" [], XmlEvent.text "2020-01-01T00:00:00Z",
   XmlEvent.endTag "time", XmlEvent.eof]

/-- Event stream realizing the zone collapsing scenario: distances 50, 80,
30 under threshold 100 form one zone that never closes before end of
stream. -/
def demoEventsZone : List XmlEvent :=
  [trkptEv 50, XmlEvent.endTag "trkpt",
   trkptEv 80, XmlEvent.endTag "trkpt",
   trkptEv 30, XmlEvent.endTag "trkpt",
   XmlEvent.eof]

/-- State with an open zone of distances 50, 80, 30, as reached right
before the end of demoEventsZone. -/
def demoZoneState : AnalyzeState :=
  { initState with
      new_results :=
        [{ distance := 50, path := "f", time := none },
         { distance := 80, path := "f", time := none },
         { distance := 30, path := "f", time := none }]
      searching_time_for := 2
      last_point := some (30, 0) }

/-- Invariant of the analyze loop: every member of a closed or open zone
is within the threshold, and the nearest miss, when present, is beyond
it. -/
def InvariantWithin (distance : ℚ) (st : AnalyzeState) : Prop :=
  (∀ r ∈ st.results, r.distance ≤ distance) ∧
  (∀ r ∈ st.new_results, r.distance ≤ distance) ∧
  (∀ n, st.nearest = some n → n.distance > distance)

/-! Helper lemmas about the stable ascending sort on the distance field. -/

theorem sortByDistance_perm (l : List GpxResult) :
    List.Perm (sortByDistance l) l :=
  List.perm_insertionSort resultLE l

theorem sortByDistance_sorted (l : List GpxResult) :
    (sortByDistance l).Sorted resultLE := by
  have h1 : IsTotal GpxResult resultLE := ⟨fun a b => le_total a.distance b.distance⟩
  have h2 : IsTrans GpxResult resultLE := ⟨fun a b c ha hb => le_trans ha hb⟩
  exact List.sorted_insertionSort resultLE l

theorem sortByDistance_head_min (l : List GpxResult) (h : l ≠ []) :
    ∃ m t, sortByDistance l = m :: t ∧ m ∈ l ∧ ∀ x ∈ l, m.distance ≤ x.distance := by
  have hp := sortByDistance_perm l
  match hm : sortByDistance l with
  | [] =>
    rw [hm] at hp
    exact absurd (List.Perm.nil_eq hp).symm h
  | m :: t =>
    refine ⟨m, t, rfl, ?_, ?_⟩
    · have hmem : m ∈ sortByDistance l := by rw [hm]; exact List.mem_cons_self m t
      exact hp.mem_iff.mp hmem
    · intro x hx
      have hx' : x ∈ sortByDistance l := hp.mem_iff.mpr hx
      rw [hm] at hx'
      rcases List.mem_cons.mp hx' with hxm | hxt
      · subst hxm; exact le_refl _
      · have hs := sortByDistance_sorted l
        rw [hm] at hs
        exact List.rel_of_sorted_cons hs x hxt

/-! Helper lemmas about zone closing. -/

theorem trkptStep_close (path : String) (distance dist : ℚ) (pt : ℚ × ℚ)
    (st : AnalyzeState) (hd : dist > distance) (hne : st.new_results ≠ []) :
    ∃ m, (trkptStep path distance dist pt st).results = st.results ++ [m] ∧
      (trkptStep path distance dist pt st).new_results = [] ∧
      m ∈ st.new_results ∧ ∀ x ∈ st.new_results, m.distance ≤ x.distance := by
  obtain ⟨m, t, hsort, hmem, hmin⟩ := sortByDistance_head_min st.new_results hne
  have hstep : (trkptStep path distance dist pt st).results = st.results ++ [m] ∧
      (trkptStep path distance dist pt st).new_results = [] := by
    simp only [trkptStep]
    by_cases hb : nearestFartherThan st.nearest dist = true <;>
      simp [hb, hd, hne, not_le.mpr hd, hsort]
  exact ⟨m, hstep.1, hstep.2, hmem, hmin⟩

theorem finalize_open_zone (st : AnalyzeState) (hne : st.new_results ≠ []) :
    ∃ m, finalize st = st.results ++ [m] ∧
      m ∈ st.new_results ∧ ∀ x ∈ st.new_results, m.distance ≤ x.distance := by
  obtain ⟨m, t, hsort, hmem, hmin⟩ := sortByDistance_head_min st.new_results hne
  refine ⟨m, ?_, hmem, hmin⟩
  simp only [finalize]
  by_cases hr : st.results = [] <;> simp [hr, hne, hsort]

/-- C1. The claim asserts that for one file with sequential point
distances 50, 150, 80, 30, 500 and threshold 100, merged with an empty
second file, the reported nearest point outside distance is the
positional successor at distance 150 in a globally sorted sequence
30, 50, 150, 500. In the code, a file that produced zone results never
emits its nearest miss, and out-of-threshold points are never emitted as
results, so the merged sequence is just 30, 50 and no nearest point
outside distance exists: main reads the element at the index right after
the within-threshold partition, and there is none. -/
theorem C1_counterexample :
    (buildReport 100 [analyze xDist xSegDist (0, 0) "file1.gpx" 100 demoEvents1,
        []]).nearestOutside = none ∧
    (sortByDistance
        ([analyze xDist xSegDist (0, 0) "file1.gpx" 100 demoEvents1,
          ([] : List GpxResult)]).flatten).map GpxResult.distance = [30, 50] := by
  constructor <;> decide

/-- C1 amended: the per-file results are 50 then 30 (two closed zones),
the within-threshold report after merging with an empty file is 30, 50 in
sorted order, and no nearest point outside distance is reported, since the
misses at 150 and 500 are not part of the per-file output of a file that
produced zone results. -/
theorem C1_amended_report :
    (analyze xDist xSegDist (0, 0) "file1.gpx" 100 demoEvents1).map GpxResult.distance =
      [50, 30] ∧
    (buildReport 100 [analyze xDist xSegDist (0, 0) "file1.gpx" 100 demoEvents1,
        []]).within.map GpxResult.distance = [30, 50] ∧
    (buildReport 100 [analyze xDist xSegDist (0, 0) "file1.gpx" 100 demoEvents1,
        []]).nearestOutside = none := by
  refine ⟨?_, ?_, ?_⟩ <;> decide

/-- C6: a maximal run of within-threshold points reduces, on closure, to
exactly one result: the minimum-distance member of the run, carried with
its own timestamp field. This holds both when a zone is closed by an
out-of-threshold point and when a still-open zone is closed at end of
stream, and the concrete run 50, 80, 30 under threshold 100 yields the
single result of distance 30. -/
theorem C6_zone_min :
    (∀ (path : String) (distance dist : ℚ) (pt : ℚ × ℚ) (st : AnalyzeState),
      dist > distance → st.new_results ≠ [] →
      ∃ m, (trkptStep path distance dist pt st).results = st.results ++ [m] ∧
        (trkptStep path distance dist pt st).new_results = [] ∧
        m ∈ st.new_results ∧ ∀ x ∈ st.new_results, m.distance ≤ x.distance) ∧
    (∀ st : AnalyzeState, st.new_results ≠ [] →
      ∃ m, finalize st = st.results ++ [m] ∧
        m ∈ st.new_results ∧ ∀ x ∈ st.new_results, m.distance ≤ x.distance) ∧
    analyze xDist xSegDist (0, 0) "f" 100 demoEventsZone =
      [{ distance := 30, path := "f", time := none }] :=
  ⟨fun path distance dist pt st hd hne => trkptStep_close path distance dist pt st hd hne,
   fun st hne => finalize_open_zone st hne,
   by decide⟩

/-- Witness for C6 at the concrete open zone 50, 80, 30 closed by a point
at distance 150 under threshold 100. -/
theorem C6_zone_min_witness :
    ∃ m, (trkptStep "f" 100 150 (150, 0) demoZoneState).results =
        demoZoneState.results ++ [m] ∧
      (trkptStep "f" 100 150 (150, 0) demoZoneState).new_results = [] ∧
      m ∈ demoZoneState.new_results ∧
      ∀ x ∈ demoZoneState.new_results, m.distance ≤ x.distance :=
  C6_zone_min.1 "f" 100 150 (150, 0) demoZoneState (by decide) (by decide)

/-- C8: a point whose computed distance equals the threshold exactly is
appended to the open zone (opening one if none is open); a point at
threshold plus any positive epsilon is not in any open zone afterwards:
the open zone, if any, is closed and the point itself is not appended
anywhere. -/
theorem C8_boundary :
    ∀ (path : String) (distance : ℚ) (pt : ℚ × ℚ) (st : AnalyzeState) (ε : ℚ),
      ((trkptStep path distance distance pt st).new_results =
        st.new_results ++ [{ distance := distance, path := path, time := none }]) ∧
      (0 < ε → (trkptStep path distance (distance + ε) pt st).new_results = []) := by
  intro path distance pt st ε
  constructor
  · simp [trkptStep, lt_irrefl]
  · intro hε
    have hd : distance < distance + ε := by linarith
    have hnle : ¬ distance + ε ≤ distance := by linarith
    simp only [trkptStep]
    by_cases hb : nearestFartherThan st.nearest (distance + ε) = true <;>
      by_cases h2 : st.new_results = [] <;>
        simp [hb, h2, hd, hnle]

/-- Witness for C8 at threshold 100 with epsilon 1, starting from the
initial state. -/
theorem C8_boundary_witness :
    ((trkptStep "f" 100 100 (100, 0) initState).new_results =
      initState.new_results ++ [{ distance := 100, path := "f", time := none }]) ∧
    (trkptStep "f" 100 (100 + 1) (101, 0) initState).new_results = [] :=
  ⟨(C8_boundary "f" 100 (100, 0) initState 1).1,
   (C8_boundary "f" 100 (101, 0) initState 1).2 (by decide)⟩

/-! Further projection and loop lemmas. -/

theorem trkptStep_time_update (path : String) (distance dist : ℚ) (pt : ℚ × ℚ)
    (st : AnalyzeState) :
    (trkptStep path distance dist pt st).time_update =
      (if nearestFartherThan st.nearest dist ∧ dist > distance then true
       else st.time_update) := by
  by_cases h1 : nearestFartherThan st.nearest dist = true ∧ dist > distance <;>
    by_cases h2 : dist ≤ distance <;>
      simp [trkptStep, apply_ite, h1, h2]

theorem trkptStep_results_close (path : String) (distance dist : ℚ) (pt : ℚ × ℚ)
    (st : AnalyzeState) (hd : dist > distance) (hne : st.new_results ≠ []) :
    (trkptStep path distance dist pt st).results =
      st.results ++ (sortByDistance st.new_results).take 1 := by
  simp only [trkptStep]
  by_cases hb : nearestFartherThan st.nearest dist = true <;>
    simp [hb, hd, hne, not_le.mpr hd]

theorem finalize_close_eq (st : AnalyzeState) (hne : st.new_results ≠ []) :
    finalize st = st.results ++ (sortByDistance st.new_results).take 1 := by
  simp only [finalize]
  by_cases hr : st.results = [] <;> simp [hr, hne]

theorem analyzeLoop_invariant
    (pd : ℚ × ℚ → ℚ × ℚ → ℚ) (sd : ℚ × ℚ → ℚ × ℚ → ℚ × ℚ → ℚ)
    (refp : ℚ × ℚ) (path : String) (distance : ℚ)
    (P : AnalyzeState → Prop) (Q : List GpxResult → Prop)
    (hfin : ∀ st, P st → Q (finalize st)) :
    ∀ (events : List XmlEvent) (st : AnalyzeState),
      (∀ st' e, e ∈ events → P st' → P (step pd sd refp path distance st' e)) →
      P st → Q (analyzeLoop pd sd refp path distance st events) := by
  intro events
  induction events with
  | nil => intro st _ hP; exact hfin st hP
  | cons e rest ih =>
    intro st hstep hP
    by_cases he : e = XmlEvent.eof
    · simp only [analyzeLoop, if_pos he]
      exact hfin st hP
    · simp only [analyzeLoop, if_neg he]
      exact ih (step pd sd refp path distance st e)
        (fun st' e' he' => hstep st' e' (List.mem_cons_of_mem _ he'))
        (hstep st e (List.mem_cons_self _ _) hP)

theorem step_resultless
    (pd : ℚ × ℚ → ℚ × ℚ → ℚ) (sd : ℚ × ℚ → ℚ × ℚ → ℚ × ℚ → ℚ)
    (refp : ℚ × ℚ) (path : String) (distance : ℚ)
    (st : AnalyzeState) (e : XmlEvent) (he : parsesTrkpt e = false)
    (h1 : st.results = []) (h2 : st.new_results = []) (h3 : st.nearest = none) :
    (step pd sd refp path distance st e).results = [] ∧
    (step pd sd refp path distance st e).new_results = [] ∧
    (step pd sd refp path distance st e).nearest = none := by
  cases e with
  | startTag name attrs =>
    by_cases hn : name = "trkpt"
    · subst hn
      cases hlon : findAttr attrs "lon" with
      | none =>
        cases hlat : findAttr attrs "lat" with
        | none => simp [step, hlon, hlat, h1, h2, h3]
        | some o => cases o <;> simp [step, hlon, hlat, h1, h2, h3]
      | some o =>
        cases o with
        | none =>
          cases hlat : findAttr attrs "lat" with
          | none => simp [step, hlon, hlat, h1, h2, h3]
          | some o2 => cases o2 <;> simp [step, hlon, hlat, h1, h2, h3]
        | some lonv =>
          cases hlat : findAttr attrs "lat" with
          | none => simp [step, hlon, hlat, h1, h2, h3]
          | some o2 =>
            cases o2 with
            | none => simp [step, hlon, hlat, h1, h2, h3]
            | some latv => simp [parsesTrkpt, hlon, hlat] at he
    · by_cases ht : name = "time" <;> simp [step, hn, ht, h1, h2, h3]
  | endTag name =>
    by_cases hn : name = "trkpt" <;> by_cases ht : name = "time" <;>
      simp [step, hn, ht, h1, h2, h3]
  | text s =>
    by_cases hin : st.in_time = true <;> by_cases hs : s = "" <;>
      by_cases htu : st.time_update = true <;>
        simp [step, textStep, hin, hs, htu, h1, h2, h3]
  | eof => simp [step, h1, h2, h3]
  | errorEvent => simp [step, h1, h2, h3]
  | otherEvent => simp [step, h1, h2, h3]

theorem analyzeLoop_skip
    (pd : ℚ × ℚ → ℚ × ℚ → ℚ) (sd : ℚ × ℚ → ℚ × ℚ → ℚ × ℚ → ℚ)
    (refp : ℚ × ℚ) (path : String) (distance : ℚ) (e : XmlEvent)
    (hne : e ≠ XmlEvent.eof)
    (hskip : ∀ st, step pd sd refp path distance st e = st) :
    ∀ (l1 l2 : List XmlEvent) (st : AnalyzeState),
      analyzeLoop pd sd refp path distance st (l1 ++ e :: l2) =
        analyzeLoop pd sd refp path distance st (l1 ++ l2) := by
  intro l1
  induction l1 with
  | nil =>
    intro l2 st
    simp only [List.nil_append, analyzeLoop, if_neg hne, hskip st]
  | cons a t ih =>
    intro l2 st
    by_cases ha : a = XmlEvent.eof
    · simp only [List.cons_append, analyzeLoop, if_pos ha]
    · simp only [List.cons_append, analyzeLoop, if_neg ha]
      exact ih l2 (step pd sd refp path distance st a)

/-- C7: at end of a file's stream, a still-open zone is closed producing
exactly the results a normal zone close would produce; when no closed or
open zone exists, the nearest miss, if any, is the single emitted result;
the concrete distances 150, 500, 300 under threshold 100 yield the single
result 150; and a stream with no parsable track point yields no results at
all. -/
theorem C7_termination :
    (∀ (st : AnalyzeState) (path : String) (distance dist : ℚ) (pt : ℚ × ℚ),
      st.new_results ≠ [] → dist > distance →
      finalize st = (trkptStep path distance dist pt st).results) ∧
    (∀ st : AnalyzeState, st.results = [] → st.new_results = [] →
      finalize st = st.nearest.toList) ∧
    analyze xDist xSegDist (0, 0) "f" 100 demoEventsMiss =
      [{ distance := 150, path := "f", time := none }] ∧
    (∀ (pd : ℚ × ℚ → ℚ × ℚ → ℚ) (sd : ℚ × ℚ → ℚ × ℚ → ℚ × ℚ → ℚ)
       (refp : ℚ × ℚ) (path : String) (distance : ℚ) (events : List XmlEvent),
      (∀ e ∈ events, parsesTrkpt e = false) →
      analyze pd sd refp path distance events = []) := by
  refine ⟨?_, ?_, by decide, ?_⟩
  · intro st path distance dist pt hne hd
    rw [finalize_close_eq st hne, trkptStep_results_close path distance dist pt st hd hne]
  · intro st h1 h2
    simp [finalize, h1, h2]
  · intro pd sd refp path distance events hall
    exact analyzeLoop_invariant pd sd refp path distance
      (fun st => st.results = [] ∧ st.new_results = [] ∧ st.nearest = none)
      (fun out => out = [])
      (fun st hP => by simp [finalize, hP.1, hP.2.1, hP.2.2])
      events initState
      (fun st' e he hP =>
        step_resultless pd sd refp path distance st' e (hall e he) hP.1 hP.2.1 hP.2.2)
      ⟨rfl, rfl, rfl⟩

/-- Witness for C7 on a state holding only a nearest miss of distance
150. -/
theorem C7_termination_witness :
    finalize
        { initState with nearest := some { distance := 150, path := "f", time := none } } =
      (some { distance := 150, path := "f", time := none } : Option GpxResult).toList :=
  C7_termination.2.1
    { initState with nearest := some { distance := 150, path := "f", time := none } }
    rfl rfl

/-- C3. The claim asserts that timestamp text is associated with a result
only while the parser is inside a time element nested directly under the
most recent point start, and that awaiting flags are cleared at the next
point start. In the code, the in-time flag is set by any time start tag
regardless of nesting, and the nearest-miss awaiting flag time_update is
cleared only when a time text is consumed, so in this stream a time
element that begins after the track point element has ended still binds
its text to the nearest miss of that point. -/
theorem C3_counterexample :
    analyze xDist xSegDist (0, 0) "f" 100 demoEventsLateTime =
      [{ distance := 150, path := "f", time := some "2020-01-01T00:00:00Z" }] ∧
    analyze xDist xSegDist (0, 0) "f" 100 demoEventsLateTime ≠
      [{ distance := 150, path := "f", time := none }] := by
  constructor <;> decide

/-- C3 amended: a timestamp text node is considered whenever the parser is
inside any time element (the flag is set by any time start tag, with no
nesting check). Nonempty text binds to the zone member at the recorded
awaiting slot when that index is valid, else to the nearest miss when its
awaiting flag is set; either way the nearest-miss awaiting flag is cleared
by the consumed text. The awaiting slot index is invalidated by the end
tag of the track point, and a point start never clears the nearest-miss
awaiting flag: it only sets it when it replaces the nearest miss. -/
theorem C3_binding :
    ∀ (pd : ℚ × ℚ → ℚ × ℚ → ℚ) (sd : ℚ × ℚ → ℚ × ℚ → ℚ × ℚ → ℚ)
      (refp : ℚ × ℚ) (path : String) (distance : ℚ)
      (st : AnalyzeState) (attrs : List (String × Option ℚ)) (s : String)
      (r : GpxResult) (dist : ℚ) (pt : ℚ × ℚ),
      (step pd sd refp path distance st (XmlEvent.startTag "time" attrs) =
        { st with in_time := true }) ∧
      (st.in_time = false → step pd sd refp path distance st (XmlEvent.text s) = st) ∧
      (st.in_time = true → s ≠ "" →
        st.new_results[st.searching_time_for]? = some r →
        step pd sd refp path distance st (XmlEvent.text s) =
          { st with
              new_results :=
                st.new_results.set st.searching_time_for { r with time := some s }
              time_update := false }) ∧
      (st.in_time = true → s ≠ "" →
        st.new_results[st.searching_time_for]? = none →
        step pd sd refp path distance st (XmlEvent.text s) =
          { st with
              nearest :=
                if st.time_update then
                  st.nearest.map (fun n => { n with time := some s })
                else st.nearest
              time_update := false }) ∧
      (step pd sd refp path distance st (XmlEvent.endTag "trkpt") =
        { st with searching_time_for := USIZE_MAX }) ∧
      ((trkptStep path distance dist pt st).time_update =
        (if nearestFartherThan st.nearest dist ∧ dist > distance then true
         else st.time_update)) := by
  intro pd sd refp path distance st attrs s r dist pt
  refine ⟨?_, ?_, ?_, ?_, ?_, trkptStep_time_update path distance dist pt st⟩
  · simp [step]
  · intro hin
    simp [step, textStep, hin]
  · intro hin hs hsome
    simp [step, textStep, hin, hs, hsome]
  · intro hin hs hnone
    by_cases htu : st.time_update = true <;>
      simp [step, textStep, hin, hs, hnone, htu]
  · simp [step]

/-- Witness for C3 on a state with an open zone of three members whose
awaiting slot is index 2, inside a time element, receiving the text T. -/
theorem C3_binding_witness :
    step xDist xSegDist (0, 0) "f" 100 { demoZoneState with in_time := true }
        (XmlEvent.text "T") =
      { results := []
        new_results :=
          [{ distance := 50, path := "f", time := none },
           { distance := 80, path := "f", time := none },
           { distance := 30, path := "f", time := some "T" }]
        nearest := none
        time_update := false
        in_time := true
        searching_time_for := 2
        last_point := some (30, 0) } :=
  (C3_binding xDist xSegDist (0, 0) "f" 100 { demoZoneState with in_time := true }
      [] "T" { distance := 30, path := "f", time := none } 0 (0, 0)).2.2.1
    (by decide) (by decide) (by decide)

/-- C4: a trkpt start whose longitude attribute is present but fails to
decode, or whose longitude decodes and whose latitude attribute is present
but fails to decode, leaves the analysis state exactly unchanged, prints
one warning naming the offending file, and its presence anywhere in the
stream does not change the analysis result, so the timestamp binding of
all subsequent points is unaffected and parsing continues. -/
theorem C4_skip_invalid_point :
    ∀ (pd : ℚ × ℚ → ℚ × ℚ → ℚ) (sd : ℚ × ℚ → ℚ × ℚ → ℚ × ℚ → ℚ)
      (refp : ℚ × ℚ) (path : String) (distance : ℚ)
      (st : AnalyzeState) (attrs : List (String × Option ℚ)) (l1 l2 : List XmlEvent),
      (findAttr attrs "lon" = some none →
        step pd sd refp path distance st (XmlEvent.startTag "trkpt" attrs) = st ∧
        stepWarnings path (XmlEvent.startTag "trkpt" attrs) =
          ["[WARNING] Invalid longitude in file: " ++ path] ∧
        analyzeLoop pd sd refp path distance st
            (l1 ++ XmlEvent.startTag "trkpt" attrs :: l2) =
          analyzeLoop pd sd refp path distance st (l1 ++ l2)) ∧
      (∀ q : ℚ, findAttr attrs "lon" = some (some q) →
        findAttr attrs "lat" = some none →
        step pd sd refp path distance st (XmlEvent.startTag "trkpt" attrs) = st ∧
        stepWarnings path (XmlEvent.startTag "trkpt" attrs) =
          ["[WARNING] Invalid latitude in file: " ++ path] ∧
        analyzeLoop pd sd refp path distance st
            (l1 ++ XmlEvent.startTag "trkpt" attrs :: l2) =
          analyzeLoop pd sd refp path distance st (l1 ++ l2)) := by
  intro pd sd refp path distance st attrs l1 l2
  constructor
  · intro hlon
    have hskip : ∀ st' : AnalyzeState,
        step pd sd refp path distance st' (XmlEvent.startTag "trkpt" attrs) = st' := by
      intro st'
      cases hlat : findAttr attrs "lat" with
      | none => simp [step, hlon, hlat]
      | some o => cases o <;> simp [step, hlon, hlat]
    refine ⟨hskip st, ?_, ?_⟩
    · simp [stepWarnings, hlon]
    · exact analyzeLoop_skip pd sd refp path distance _ (by simp) hskip l1 l2 st
  · intro q hlon hlat
    have hskip : ∀ st' : AnalyzeState,
        step pd sd refp path distance st' (XmlEvent.startTag "trkpt" attrs) = st' := by
      intro st'
      simp [step, hlon, hlat]
    refine ⟨hskip st, ?_, ?_⟩
    · simp [stepWarnings, hlon, hlat]
    · exact analyzeLoop_skip pd sd refp path distance _ (by simp) hskip l1 l2 st

/-- Witness for C4 with a longitude attribute that fails to decode,
inserted before the end of an otherwise empty stream. -/
theorem C4_skip_invalid_point_witness :
    step xDist xSegDist (0, 0) "f" 100 initState
        (XmlEvent.startTag "trkpt" [("lon", none)]) = initState ∧
    stepWarnings "f" (XmlEvent.startTag "trkpt" [("lon", none)]) =
      ["[WARNING] Invalid longitude in file: " ++ "f"] ∧
    analyzeLoop xDist xSegDist (0, 0) "f" 100 initState
        ([] ++ XmlEvent.startTag "trkpt" [("lon", none)] :: [XmlEvent.eof]) =
      analyzeLoop xDist xSegDist (0, 0) "f" 100 initState ([] ++ [XmlEvent.eof]) :=
  (C4_skip_invalid_point xDist xSegDist (0, 0) "f" 100 initState
      [("lon", none)] [] [XmlEvent.eof]).1 (by decide)

/-! Projection lemmas for trkptStep and the loop invariant. -/

theorem trkptStep_results (path : String) (distance dist : ℚ) (pt : ℚ × ℚ)
    (st : AnalyzeState) :
    (trkptStep path distance dist pt st).results =
      if dist > distance ∧ st.new_results ≠ [] then
        st.results ++ (sortByDistance st.new_results).take 1
      else st.results := by
  rcases lt_or_le distance dist with hgt | hle
  · have hnd : ¬ dist ≤ distance := not_le.mpr hgt
    by_cases hb : nearestFartherThan st.nearest dist = true <;>
      by_cases hne : st.new_results = [] <;>
        simp [trkptStep, hb, hne, hgt, hnd]
  · have hnd : ¬ distance < dist := not_lt.mpr hle
    by_cases hb : nearestFartherThan st.nearest dist = true <;>
      simp [trkptStep, hb, hle, hnd]

theorem trkptStep_new_results (path : String) (distance dist : ℚ) (pt : ℚ × ℚ)
    (st : AnalyzeState) :
    (trkptStep path distance dist pt st).new_results =
      if dist ≤ distance then
        st.new_results ++ [{ distance := dist, path := path, time := none }]
      else [] := by
  rcases lt_or_le distance dist with hgt | hle
  · have hnd : ¬ dist ≤ distance := not_le.mpr hgt
    by_cases hb : nearestFartherThan st.nearest dist = true <;>
      by_cases hne : st.new_results = [] <;>
        simp [trkptStep, hb, hne, hgt, hnd]
  · have hnd : ¬ distance < dist := not_lt.mpr hle
    by_cases hb : nearestFartherThan st.nearest dist = true <;>
      simp [trkptStep, hb, hle, hnd]

theorem trkptStep_nearest (path : String) (distance dist : ℚ) (pt : ℚ × ℚ)
    (st : AnalyzeState) :
    (trkptStep path distance dist pt st).nearest =
      if nearestFartherThan st.nearest dist ∧ dist > distance then
        some { distance := dist, path := path, time := none }
      else st.nearest := by
  by_cases hc : nearestFartherThan st.nearest dist = true ∧ dist > distance <;>
    by_cases hd : dist ≤ distance <;>
      simp [trkptStep, apply_ite, hc, hd]

theorem trkptStep_inv (path : String) (distance dist : ℚ) (pt : ℚ × ℚ)
    (st : AnalyzeState) (h : InvariantWithin distance st) :
    InvariantWithin distance (trkptStep path distance dist pt st) := by
  obtain ⟨h1, h2, h3⟩ := h
  have hTake : ∀ x ∈ (sortByDistance st.new_results).take 1, x.distance ≤ distance :=
    fun x hx =>
      h2 x ((sortByDistance_perm st.new_results).mem_iff.mp (List.mem_of_mem_take hx))
  refine ⟨?_, ?_, ?_⟩
  · rw [trkptStep_results]
    intro r hr
    by_cases hc : dist > distance ∧ st.new_results ≠ []
    · rw [if_pos hc] at hr
      rcases List.mem_append.mp hr with hl | hrr
      · exact h1 r hl
      · exact hTake r hrr
    · rw [if_neg hc] at hr
      exact h1 r hr
  · rw [trkptStep_new_results]
    intro r hr
    by_cases hd : dist ≤ distance
    · rw [if_pos hd] at hr
      rcases List.mem_append.mp hr with hl | hrr
      · exact h2 r hl
      · simp only [List.mem_singleton] at hrr
        subst hrr
        exact hd
    · rw [if_neg hd] at hr
      simp at hr
  · rw [trkptStep_nearest]
    intro n hn
    by_cases hc : nearestFartherThan st.nearest dist = true ∧ dist > distance
    · rw [if_pos hc] at hn
      cases hn
      exact hc.2
    · rw [if_neg hc] at hn
      exact h3 n hn

theorem textStep_inv (distance : ℚ) (s : String) (st : AnalyzeState)
    (h : InvariantWithin distance st) :
    InvariantWithin distance (textStep s st) := by
  obtain ⟨h1, h2, h3⟩ := h
  by_cases hin : st.in_time = true
  · by_cases hs : s = ""
    · have ht : textStep s st = { st with time_update := false } := by
        simp [textStep, hin, hs]
      rw [ht]
      exact ⟨h1, h2, h3⟩
    · cases hget : st.new_results[st.searching_time_for]? with
      | some r =>
        have ht : textStep s st =
            { st with
                new_results :=
                  st.new_results.set st.searching_time_for { r with time := some s }
                time_update := false } := by
          simp [textStep, hin, hs, hget]
        rw [ht]
        have hrmem : r ∈ st.new_results := List.getElem?_mem hget
        refine ⟨h1, ?_, h3⟩
        intro x hx
        rcases List.mem_or_eq_of_mem_set hx with hxl | hxe
        · exact h2 x hxl
        · subst hxe
          exact h2 r hrmem
      | none =>
        by_cases htu : st.time_update = true
        · have ht : textStep s st =
              { st with
                  nearest := st.nearest.map (fun n => { n with time := some s })
                  time_update := false } := by
            simp [textStep, hin, hs, hget, htu]
          rw [ht]
          refine ⟨h1, h2, ?_⟩
          intro n hn
          rcases Option.map_eq_some'.mp hn with ⟨m, hm, hmap⟩
          rw [← hmap]
          exact h3 m hm
        · have ht : textStep s st = { st with time_update := false } := by
            simp [textStep, hin, hs, hget, htu]
          rw [ht]
          exact ⟨h1, h2, h3⟩
  · have ht : textStep s st = st := by simp [textStep, hin]
    rw [ht]
    exact ⟨h1, h2, h3⟩

theorem step_inv (pd : ℚ × ℚ → ℚ × ℚ → ℚ) (sd : ℚ × ℚ → ℚ × ℚ → ℚ × ℚ → ℚ)
    (refp : ℚ × ℚ) (path : String) (distance : ℚ)
    (st : AnalyzeState) (e : XmlEvent) (h : InvariantWithin distance st) :
    InvariantWithin distance (step pd sd refp path distance st e) := by
  obtain ⟨h1, h2, h3⟩ := h
  cases e with
  | startTag name attrs =>
    by_cases hn : name = "trkpt"
    · subst hn
      cases hlon : findAttr attrs "lon" with
      | none =>
        cases hlat : findAttr attrs "lat" with
        | none => simpa [step, hlon, hlat] using ⟨h1, h2, h3⟩
        | some o => cases o <;> simpa [step, hlon, hlat] using ⟨h1, h2, h3⟩
      | some o =>
        cases o with
        | none =>
          cases hlat : findAttr attrs "lat" with
          | none => simpa [step, hlon, hlat] using ⟨h1, h2, h3⟩
          | some o2 => cases o2 <;> simpa [step, hlon, hlat] using ⟨h1, h2, h3⟩
        | some lonv =>
          cases hlat : findAttr attrs "lat" with
          | none => simpa [step, hlon, hlat] using ⟨h1, h2, h3⟩
          | some o2 =>
            cases o2 with
            | none => simpa [step, hlon, hlat] using ⟨h1, h2, h3⟩
            | some latv =>
              have := trkptStep_inv path distance
                (distOf pd sd refp st.last_point (lonv, latv)) (lonv, latv) st ⟨h1, h2, h3⟩
              simpa [step, hlon, hlat] using this
    · by_cases ht : name = "time" <;> simpa [step, hn, ht] using ⟨h1, h2, h3⟩
  | endTag name =>
    by_cases hn : name = "trkpt" <;> by_cases ht : name = "time" <;>
      simpa [step, hn, ht] using ⟨h1, h2, h3⟩
  | text s => exact textStep_inv distance s st ⟨h1, h2, h3⟩
  | eof => simpa [step] using ⟨h1, h2, h3⟩
  | errorEvent => simpa [step] using ⟨h1, h2, h3⟩
  | otherEvent => simpa [step] using ⟨h1, h2, h3⟩

theorem finalize_inv (distance : ℚ) (st : AnalyzeState)
    (h : InvariantWithin distance st) :
    (∀ r ∈ finalize st, r.distance ≤ distance) ∨
      (∃ n, finalize st = [n] ∧ n.distance > distance) := by
  obtain ⟨h1, h2, h3⟩ := h
  by_cases hn : st.new_results = []
  · by_cases hr : st.results = []
    · cases hne : st.nearest with
      | none => left; simp [finalize, hr, hn, hne]
      | some n => right; exact ⟨n, by simp [finalize, hr, hn, hne], h3 n hne⟩
    · left
      intro r hrm
      have : finalize st = st.results := by simp [finalize, hr, hn]
      rw [this] at hrm
      exact h1 r hrm
  · left
    intro r hrm
    rw [finalize_close_eq st hn] at hrm
    rcases List.mem_append.mp hrm with hl | hrr
    · exact h1 r hl
    · exact h2 r
        ((sortByDistance_perm st.new_results).mem_iff.mp (List.mem_of_mem_take hrr))

/-- C9: the list a single file's analysis returns consists either entirely
of within-threshold results (the zone minima), or of exactly one result
beyond the threshold (the nearest-miss fallback); in the latter case no
within-threshold result is present at all, so the fallback only occurs for
a file without any zone result. -/
theorem C9_output_invariant :
    ∀ (pd : ℚ × ℚ → ℚ × ℚ → ℚ) (sd : ℚ × ℚ → ℚ × ℚ → ℚ × ℚ → ℚ)
      (refp : ℚ × ℚ) (path : String) (distance : ℚ) (events : List XmlEvent),
      (∀ r ∈ analyze pd sd refp path distance events, r.distance ≤ distance) ∨
      (∃ n, analyze pd sd refp path distance events = [n] ∧ n.distance > distance ∧
        ∀ r ∈ analyze pd sd refp path distance events, r.distance > distance) := by
  intro pd sd refp path distance events
  simp only [analyze]
  have main := analyzeLoop_invariant pd sd refp path distance
    (InvariantWithin distance)
    (fun out => (∀ r ∈ out, r.distance ≤ distance) ∨
      (∃ n, out = [n] ∧ n.distance > distance))
    (fun st hP => finalize_inv distance st hP)
    events initState
    (fun st' e _ hP => step_inv pd sd refp path distance st' e hP)
    ⟨by intro r hr; simp [initState] at hr,
     by intro r hr; simp [initState] at hr,
     by intro n hn; simp [initState] at hn⟩
  rcases main with hall | ⟨n, heq, hgt⟩
  · exact Or.inl hall
  · refine Or.inr ⟨n, heq, hgt, ?_⟩
    intro r hr
    rw [heq] at hr
    simp only [List.mem_singleton] at hr
    subst hr
    exact hgt

/-! Lemmas for the merge and partition stage of main. -/

theorem sorted_filter_eq_takeWhile (distance : ℚ) :
    ∀ l : List GpxResult, l.Sorted resultLE →
      l.filter (fun r => decide (r.distance ≤ distance)) =
        l.takeWhile (fun r => decide (r.distance ≤ distance)) := by
  intro l
  induction l with
  | nil => intro _; rfl
  | cons a t ih =>
    intro hs
    by_cases ha : a.distance ≤ distance
    · simp only [List.filter_cons, List.takeWhile_cons, decide_eq_true ha, if_pos rfl]
      rw [ih hs.of_cons]
      simp
    · have hall : ∀ x ∈ t, ¬ x.distance ≤ distance := by
        intro x hx hxle
        exact ha (le_trans (List.rel_of_sorted_cons hs x hx) hxle)
      have hft : t.filter (fun r => decide (r.distance ≤ distance)) = [] :=
        List.filter_eq_nil_iff.mpr (fun x hx => by simpa using hall x hx)
      simp [List.filter_cons, List.takeWhile_cons, ha, hft]

theorem getElem?_length_takeWhile (p : GpxResult → Bool) (l : List GpxResult) :
    l[(l.takeWhile p).length]? = (l.dropWhile p).head? := by
  have h : (l.takeWhile p ++ l.dropWhile p)[(l.takeWhile p).length]? =
      (l.dropWhile p).head? := by
    rw [List.getElem?_append_right (le_refl _)]
    simp [List.head?_eq_getElem?]
  rw [List.takeWhile_append_dropWhile] at h
  exact h

theorem head?_dropWhile_false (p : GpxResult → Bool) :
    ∀ (l : List GpxResult) (b : GpxResult), (l.dropWhile p).head? = some b → p b = false := by
  intro l
  induction l with
  | nil => intro b h; simp [List.dropWhile] at h
  | cons a t ih =>
    intro b h
    rw [List.dropWhile_cons] at h
    by_cases hp : p a = true
    · rw [if_pos hp] at h
      exact ih b h
    · rw [if_neg hp] at h
      simp only [List.head?_cons, Option.some.injEq] at h
      rw [← h]
      exact Bool.not_eq_true _ ▸ hp

theorem buildReport_within (distance : ℚ) (perFile : List (List GpxResult)) :
    (buildReport distance perFile).within =
      (sortByDistance perFile.flatten).filter
        (fun r => decide (r.distance ≤ distance)) := by
  by_cases h1 : (sortByDistance perFile.flatten).filter
      (fun r => decide (r.distance ≤ distance)) = []
  · by_cases h2 : sortByDistance perFile.flatten = [] <;> simp [buildReport, h1, h2]
  · simp [buildReport, h1]

/-- C5: after all per-file analyses, main flattens the per-file lists,
sorts ascending by distance (a permutation of the flattened results, so
independent of file processing order up to ties), reports exactly the
longest within-threshold prefix of the sorted sequence, reports the
element right after that prefix, when present, as the nearest point
outside the distance, which indeed exceeds the threshold; with an empty
within-threshold part but some result it reports the globally minimum
result as closest overall; and with no result at all it reports that no
points were found. The concrete corpus with distances 20, 90 in one file
and 5, 70 in the other merges to 5, 20, 70, 90 in either file order. -/
theorem C5_merge_partition :
    ∀ (distance : ℚ) (perFile : List (List GpxResult)),
      (List.Perm (sortByDistance perFile.flatten) perFile.flatten) ∧
      (sortByDistance perFile.flatten).Sorted resultLE ∧
      ((buildReport distance perFile).within =
        (sortByDistance perFile.flatten).takeWhile
          (fun r => decide (r.distance ≤ distance))) ∧
      (∀ r ∈ (buildReport distance perFile).within, r.distance ≤ distance) ∧
      ((buildReport distance perFile).within ≠ [] →
        (buildReport distance perFile).nearestOutside =
          ((sortByDistance perFile.flatten).dropWhile
            (fun r => decide (r.distance ≤ distance))).head? ∧
        ∀ b, (buildReport distance perFile).nearestOutside = some b →
          b.distance > distance) ∧
      ((buildReport distance perFile).within = [] → perFile.flatten ≠ [] →
        (buildReport distance perFile).closestOverall =
          (sortByDistance perFile.flatten).head? ∧
        ∀ b, (buildReport distance perFile).closestOverall = some b →
          ∀ x ∈ perFile.flatten, b.distance ≤ x.distance) ∧
      (perFile.flatten = [] →
        buildReport distance perFile =
          { within := [], nearestOutside := none, closestOverall := none,
            foundAny := false }) ∧
      (buildReport 100
          [[{ distance := 20, path := "a", time := none },
            { distance := 90, path := "a", time := none }],
           [{ distance := 5, path := "b", time := none },
            { distance := 70, path := "b", time := none }]] =
        buildReport 100
          [[{ distance := 5, path := "b", time := none },
            { distance := 70, path := "b", time := none }],
           [{ distance := 20, path := "a", time := none },
            { distance := 90, path := "a", time := none }]] ∧
       (buildReport 100
          [[{ distance := 20, path := "a", time := none },
            { distance := 90, path := "a", time := none }],
           [{ distance := 5, path := "b", time := none },
            { distance := 70, path := "b", time := none }]]).within.map
          GpxResult.distance = [5, 20, 70, 90]) := by
  intro distance perFile
  have hperm := sortByDistance_perm perFile.flatten
  have hsorted := sortByDistance_sorted perFile.flatten
  have hwithin := buildReport_within distance perFile
  have htake := sorted_filter_eq_takeWhile distance (sortByDistance perFile.flatten) hsorted
  refine ⟨hperm, hsorted, by rw [hwithin, htake], ?_, ?_, ?_, ?_, by decide, by decide⟩
  · intro r hr
    rw [hwithin] at hr
    simpa using (List.mem_filter.mp hr).2
  · intro hne
    have hfil : (sortByDistance perFile.flatten).filter
        (fun r => decide (r.distance ≤ distance)) ≠ [] := by
      rw [hwithin] at hne; exact hne
    have hout : (buildReport distance perFile).nearestOutside =
        (sortByDistance perFile.flatten)[((sortByDistance perFile.flatten).filter
          (fun r => decide (r.distance ≤ distance))).length]? := by
      simp [buildReport, hfil]
    constructor
    · rw [hout, htake, getElem?_length_takeWhile]
    · intro b hb
      rw [hout, htake, getElem?_length_takeWhile] at hb
      have := head?_dropWhile_false _ (sortByDistance perFile.flatten) b hb
      simp only [decide_eq_false_iff_not] at this
      exact lt_of_not_le this
  · intro hempty hflat
    have hfil : (sortByDistance perFile.flatten).filter
        (fun r => decide (r.distance ≤ distance)) = [] := by
      rw [hwithin] at hempty; exact hempty
    have hrs : sortByDistance perFile.flatten ≠ [] := by
      intro h0
      exact hflat (List.Perm.nil_eq (h0 ▸ hperm)).symm
    have hclosest : (buildReport distance perFile).closestOverall =
        (sortByDistance perFile.flatten).head? := by
      simp [buildReport, hfil, hrs]
    constructor
    · exact hclosest
    · intro b hb x hx
      rw [hclosest] at hb
      have hxs : x ∈ sortByDistance perFile.flatten := hperm.mem_iff.mpr hx
      match hm : sortByDistance perFile.flatten with
      | [] => rw [hm] at hb; simp at hb
      | m :: t =>
        rw [hm] at hb
        simp only [List.head?_cons, Option.some.injEq] at hb
        rw [hm] at hxs
        rcases List.mem_cons.mp hxs with hxm | hxt
        · rw [← hb, hxm]
        · have hst := hsorted
          rw [hm] at hst
          rw [← hb]
          exact List.rel_of_sorted_cons hst x hxt
  · intro hflat
    have h0 : sortByDistance perFile.flatten = [] := by
      rw [hflat]; rfl
    simp [buildReport, h0]

/-- Witness for C5 on the corpus with distances 20, 90 and 5, 70 under
threshold 50: the within-threshold prefix is 5, 20 and the nearest point
outside the distance is the boundary element 70. -/
theorem C5_merge_partition_witness :
    (buildReport 50
        [[{ distance := 20, path := "a", time := none },
          { distance := 90, path := "a", time := none }],
         [{ distance := 5, path := "b", time := none },
          { distance := 70, path := "b", time := none }]]).nearestOutside =
      ((sortByDistance
          ([[{ distance := 20, path := "a", time := none },
             { distance := 90, path := "a", time := none }],
            [{ distance := 5, path := "b", time := none },
             { distance := 70, path := "b", time := none }]] :
            List (List GpxResult)).flatten).dropWhile
        (fun r => decide (r.distance ≤ 50))).head? ∧
    ∀ b, (buildReport 50
        [[{ distance := 20, path := "a", time := none },
          { distance := 90, path := "a", time := none }],
         [{ distance := 5, path := "b", time := none },
          { distance := 70, path := "b", time := none }]]).nearestOutside = some b →
      b.distance > 50 :=
  (C5_merge_partition 50
      [[{ distance := 20, path := "a", time := none },
        { distance := 90, path := "a", time := none }],
       [{ distance := 5, path := "b", time := none },
        { distance := 70, path := "b", time := none }]]).2.2.2.2.1 (by decide)

/-! Lemmas for the segment distance geometry. -/

theorem qdist2_nonneg (p q : ℚ × ℚ) : 0 ≤ qdist2 p q :=
  add_nonneg (mul_self_nonneg _) (mul_self_nonneg _)

theorem qdist2_eq_zero_iff (p q : ℚ × ℚ) : qdist2 p q = 0 ↔ p = q := by
  constructor
  · intro h
    rw [qdist2] at h
    have hx : (p.1 - q.1) * (p.1 - q.1) = 0 := by
      nlinarith [mul_self_nonneg (p.1 - q.1), mul_self_nonneg (p.2 - q.2)]
    have hy : (p.2 - q.2) * (p.2 - q.2) = 0 := by
      nlinarith [mul_self_nonneg (p.1 - q.1), mul_self_nonneg (p.2 - q.2)]
    have e1 : p.1 = q.1 := by have := mul_self_eq_zero.mp hx; linarith
    have e2 : p.2 = q.2 := by have := mul_self_eq_zero.mp hy; linarith
    exact Prod.ext_iff.mpr ⟨e1, e2⟩
  · intro h
    subst h
    simp [qdist2]

theorem qdist2_segFoot (point s e : ℚ × ℚ) (h : qdist2 s e ≠ 0) :
    qdist2 point (segFoot point s e) = segCross point s e ^ 2 * qdist2 s e := by
  simp only [qdist2, segFoot, segParam, segCross] at *
  field_simp
  ring

theorem line_segment_distance_before (point s e : ℚ × ℚ) (hne : s ≠ e)
    (h : segParam point s e ≤ 0) :
    line_segment_distance point s e = euclidean_distance point s := by
  rw [line_segment_distance, if_neg hne, if_pos h]

theorem line_segment_distance_after (point s e : ℚ × ℚ) (hne : s ≠ e)
    (h : 1 ≤ segParam point s e) :
    line_segment_distance point s e = euclidean_distance point e := by
  have h0 : ¬ segParam point s e ≤ 0 := by linarith
  rw [line_segment_distance, if_neg hne, if_neg h0, if_pos h]

theorem line_segment_distance_perp (point s e : ℚ × ℚ) (hne : s ≠ e)
    (h0 : 0 < segParam point s e) (h1 : segParam point s e < 1) :
    line_segment_distance point s e =
      euclidean_distance point (segFoot point s e) := by
  have hd2 : qdist2 s e ≠ 0 := fun hz => hne ((qdist2_eq_zero_iff s e).mp hz)
  rw [line_segment_distance, if_neg hne, if_neg (not_le.mpr h0), if_neg (not_le.mpr h1),
    euclidean_distance, qdist2_segFoot point s e hd2]
  push_cast
  rw [Real.sqrt_mul (sq_nonneg _), Real.sqrt_sq_eq_abs]

/-- C2. The claim asserts that when the reference's projection does not
fall between the two endpoint projections, the distance falls back to the
straight-line distance to the current point. In the code (the geo crate's
point-to-segment distance called at src/main.rs line 132), the fallback is
the distance to the nearer endpoint: when the projection parameter is at
most 0 it is the distance to the previous point, not to the current one.
At reference (3, 0) with previous point (2, 0) and current point (1, 0)
the projection parameter is negative and the computed distance is 1, the
distance to the previous point, while the distance to the current point
is 2. -/
theorem C2_counterexample :
    segParam (3, 0) (2, 0) (1, 0) ≤ 0 ∧
    line_segment_distance (3, 0) (2, 0) (1, 0) = 1 ∧
    euclidean_distance (3, 0) (1, 0) = 2 ∧
    line_segment_distance (3, 0) (2, 0) (1, 0) ≠ euclidean_distance (3, 0) (1, 0) := by
  have hpar : segParam (3, 0) (2, 0) (1, 0) ≤ 0 := by norm_num [segParam, qdist2]
  have h1 : line_segment_distance (3, 0) (2, 0) (1, 0) = 1 := by
    rw [line_segment_distance_before (3, 0) (2, 0) (1, 0) (by decide) hpar,
      euclidean_distance]
    norm_num [qdist2]
  have h2 : euclidean_distance (3, 0) (1, 0) = 2 := by
    rw [euclidean_distance]
    norm_num [qdist2]
    rw [show (4 : ℝ) = 2 ^ 2 by norm_num, Real.sqrt_sq (by norm_num)]
  exact ⟨hpar, h1, h2, by rw [h1, h2]; norm_num⟩

/-- C2 amended: with no previous point the distance is the plain point
distance from the reference to the current point (the haversine call of
the source); with a previous point it is the segment distance, which
equals the perpendicular distance to the foot of the projection when the
projection parameter lies strictly between the endpoints, and otherwise
falls back to the straight-line distance to the nearer endpoint: the
previous point when the parameter is at most 0, the current point when it
is at least 1. -/
theorem C2_segment_distance :
    (∀ (pd : ℚ × ℚ → ℚ × ℚ → ℚ) (sd : ℚ × ℚ → ℚ × ℚ → ℚ × ℚ → ℚ)
       (refp pt lp : ℚ × ℚ),
      distOf pd sd refp none pt = pd refp pt ∧
      distOf pd sd refp (some lp) pt = sd refp lp pt) ∧
    (∀ point s e : ℚ × ℚ, s ≠ e →
      (0 < segParam point s e → segParam point s e < 1 →
        line_segment_distance point s e =
          euclidean_distance point (segFoot point s e)) ∧
      (segParam point s e ≤ 0 →
        line_segment_distance point s e = euclidean_distance point s) ∧
      (1 ≤ segParam point s e →
        line_segment_distance point s e = euclidean_distance point e)) := by
  refine ⟨fun pd sd refp pt lp => ⟨rfl, rfl⟩, ?_⟩
  intro point s e hne
  exact ⟨fun h0 h1 => line_segment_distance_perp point s e hne h0 h1,
    fun h => line_segment_distance_before point s e hne h,
    fun h => line_segment_distance_after point s e hne h⟩

/-- Witness for C2 at the first-point case and at the concrete fallback
configuration of reference (3, 0), previous point (2, 0), current point
(1, 0). -/
theorem C2_segment_distance_witness :
    distOf xDist xSegDist (0, 0) none (5, 0) = xDist (0, 0) (5, 0) ∧
    line_segment_distance (3, 0) (2, 0) (1, 0) = euclidean_distance (3, 0) (2, 0) :=
  ⟨(C2_segment_distance.1 xDist xSegDist (0, 0) (5, 0) (0, 0)).1,
   (C2_segment_distance.2 (3, 0) (2, 0) (1, 0) (by decide)).2.1
     (by norm_num [segParam, qdist2])⟩

/-- C10: a file whose path cannot be opened makes analyze panic on the
unwrap of the XML reader constructor instead of producing a result or an
error value, and one such file aborts the whole corpus run. -/
theorem C10_panic_propagation :
    (∀ (pd : ℚ × ℚ → ℚ × ℚ → ℚ) (sd : ℚ × ℚ → ℚ × ℚ → ℚ × ℚ → ℚ)
       (refp : ℚ × ℚ) (path : String) (distance : ℚ),
      analyzeFile pd sd refp path distance none = none) ∧
    (∀ (pd : ℚ × ℚ → ℚ × ℚ → ℚ) (sd : ℚ × ℚ → ℚ × ℚ → ℚ × ℚ → ℚ)
       (refp : ℚ × ℚ) (distance : ℚ)
       (files : List (String × Option (List XmlEvent)))
       (f : String × Option (List XmlEvent)),
      f ∈ files → f.2 = none →
      runCorpus pd sd refp distance files = none) := by
  constructor
  · intro pd sd refp path distance
    rfl
  · intro pd sd refp distance files f hf hnone
    induction files with
    | nil => simp at hf
    | cons a t ih =>
      rcases List.mem_cons.mp hf with ha | ht
      · subst ha
        simp [runCorpus, analyzeFile, hnone]
      · have hrec := ih ht
        cases hA : analyzeFile pd sd refp a.1 distance a.2 <;>
          simp [runCorpus, hA, hrec]

/-- Witness for C10 on a corpus of one readable and one unreadable
file. -/
theorem C10_panic_propagation_witness :
    runCorpus xDist xSegDist (0, 0) 100
      [("ok.gpx", some demoEvents1), ("missing.gpx", none)] = none :=
  C10_panic_propagation.2 xDist xSegDist (0, 0) 100
    [("ok.gpx", some demoEvents1), ("missing.gpx", none)]
    ("missing.gpx", none) (by simp) rfl

end GpxAnalyzer
